import Mathlib

set_option maxHeartbeats 1000000
set_option maxRecDepth 40000

/-!
Shallow embedding of the suit-recognition core (src/Cards.py) in Lean 4.

External OpenCV/numpy primitives (cvtColor, GaussianBlur, findContours,
contourArea, arcLength, approxPolyDP, boundingRect, resize sampling,
getPerspectiveTransform/warpPerspective sampling, imread) are modelled as
abstract function parameters collected in the structure `CVPrims`; the
repository's own arithmetic and control flow (thresholds, the uint8
wraparound of numpy scalar arithmetic, contour classification, corner-role
assignment, the template-matching fold) are translated literally.

Machine integers: pixel intensities are uint8 in the source; arithmetic on
numpy uint8 scalars combined with small positive Python ints stays uint8 and
wraps modulo 256 (value-based casting), which is modelled with explicit
`% 256`.  `cv2.contourArea`/`cv2.arcLength` return nonnegative floats whose
comparisons against integer constants are modelled over `ℚ`.
-/

/-! ## Constants (src/Cards.py lines 10-24) -/

def BKG_THRESH : Nat := 60
def CARD_THRESH : Nat := 30
def CORNER_WIDTH : Nat := 32
def CORNER_HEIGHT : Nat := 84
def SUIT_WIDTH : Nat := 70
def SUIT_HEIGHT : Nat := 100
def SUIT_DIFF_MAX : Nat := 700
def CARD_MAX_AREA : Nat := 120000
def CARD_MIN_AREA : Nat := 25000

/-! ## Images and basic raster operations -/

/-- A single-channel image: a list of rows of uint8 pixel intensities. -/
abbrev Image := List (List Nat)

/-- A colour frame: rows of BGR pixel triples. -/
abbrev Frame := List (List (Nat × Nat × Nat))

/-- Build a `hgt × wdt` image from a pixel generator (row, column → value).
This is how outputs of the external resize/warp primitives are modelled:
OpenCV guarantees the output raster has exactly the requested size, and the
pixel values come from an abstract sampling function. -/
def mkImg (hgt wdt : Nat) (f : Nat → Nat → Nat) : Image :=
  (List.range hgt).map (fun r => (List.range wdt).map (f r))

/-- `cv2.threshold(img, t, maxval, cv2.THRESH_BINARY)`:
pixels strictly above `t` become `maxval`, the rest become 0. -/
def threshold_binary (img : Image) (t maxval : Nat) : Image :=
  img.map (fun row => row.map (fun p => if t < p then maxval else 0))

/-- `cv2.threshold(img, t, maxval, cv2.THRESH_BINARY_INV)`:
pixels strictly above `t` become 0, the rest become `maxval`. -/
def threshold_binary_inv (img : Image) (t maxval : Nat) : Image :=
  img.map (fun row => row.map (fun p => if t < p then 0 else maxval))

/-- Sum over `cv2.absdiff(a, b)`: total absolute per-pixel difference
(`np.sum(diff_img)`).  In the pipeline `a` and `b` always have the same
shape (cv2.absdiff requires it), which theorems enforce via hypotheses. -/
def absdiffSum (a b : Image) : Nat :=
  ((a.zip b).map
    (fun rp => ((rp.1.zip rp.2).map (fun p => Nat.dist p.1 p.2)).sum)).sum

/-- `int(np.sum(cv2.absdiff(a, b))/255)` from `match_card`
(src/Cards.py lines 209-210): true division then `int` truncation equals
`Nat` division for nonnegative values. -/
def suitDiff (a b : Image) : Nat :=
  absdiffSum a b / 255

/-- Well-formed normalized glyph: `SUIT_HEIGHT` (100) rows of
`SUIT_WIDTH` (70) uint8 pixels. -/
abbrev isGlyph (im : Image) : Prop :=
  im.length = 100 ∧ ∀ r ∈ im, r.length = 70 ∧ ∀ p ∈ r, p ≤ 255

/-! ## Data structures (src/Cards.py lines 30-49) -/

/-- `Query_card.__init__` (src/Cards.py lines 30-41): field defaults mirror
the Python initializer. -/
structure Query_card where
  contour : List (Int × Int) := []
  width : Nat := 0
  height : Nat := 0
  corner_pts : List (ℚ × ℚ) := []
  center : List Int := []
  warp : Image := []
  suit_img : Image := []
  best_suit_match : String := "Unknown"
  suit_diff : Nat := 0
deriving DecidableEq

/-- `Train_suits` (src/Cards.py lines 44-49): `img` is whatever `cv2.imread`
produced — `none` models a failed read (imread returns None, no exception). -/
structure Train_suits where
  img : Option Image := none
  name : String := "Placeholder"
deriving DecidableEq

/-! ## Template loading (src/Cards.py lines 52-66) -/

/-- `load_suits` (src/Cards.py lines 52-66).  `read` models `cv2.imread` in
grayscale mode: it returns `none` when the file is absent or unreadable, and
`load_suits` stores that result without any validation or error reporting. -/
def load_suits (read : String → Option Image) (filepath : String) :
    List Train_suits :=
  ["Spades", "Diamonds", "Clubs", "Hearts"].map
    (fun s => { img := read (filepath ++ (s ++ ".jpg")), name := s })

/-! ## Suit matching (src/Cards.py lines 191-224) -/

/-- Score of a template against a glyph (uses the stored image; in the
all-loaded case `t.img.getD [] = im` for `t.img = some im`). -/
def score (g : Image) (t : Train_suits) : Nat :=
  suitDiff g (t.img.getD [])

/-- The template loop of `match_card` (src/Cards.py lines 207-215) with its
mutable running best `(best_suit_match_diff, best_suit_name)` made into an
accumulator.  `cv2.absdiff(qCard.suit_img, None)` raises in Python when a
template image failed to load, hence the `Option` result. -/
def matchLoop (g : Image) :
    List Train_suits → Nat × Option String → Option (Nat × Option String)
  | [], acc => some acc
  | t :: ts, acc =>
    match t.img with
    | none => none
    | some im =>
      let d := suitDiff g im
      matchLoop g ts (if d < acc.1 then (d, some t.name) else acc)

/-- Pure version of the loop for the case where every template image loaded. -/
def matchFold (g : Image) :
    List Train_suits → Nat × Option String → Nat × Option String
  | [], acc => acc
  | t :: ts, acc =>
    let d := score g t
    matchFold g ts (if d < acc.1 then (d, some t.name) else acc)

/-- `match_card` (src/Cards.py lines 191-224): the loop runs only when
`len(qCard.suit_img) != 0`; afterwards the label is the best template's name
exactly when the best difference is strictly below `SUIT_DIFF_MAX` (700),
else "Unknown".  When no update ever happened the best difference is still
the sentinel 10000 (so the name lookup is never reached with no best name). -/
def match_card (q : Query_card) (ts : List Train_suits) :
    Option (String × Nat) :=
  let r0 : Nat × Option String := (10000, none)
  let r := if q.suit_img = [] then some r0 else matchLoop q.suit_img ts r0
  r.map (fun a =>
    ((if a.1 < SUIT_DIFF_MAX then a.2.getD "Unknown" else "Unknown"), a.1))

/-- State-passing translation of `match_card`, threading the `Query_card`
through every statement of the function body; the source reads
`qCard.suit_img` but never assigns to any attribute of `qCard`. -/
def matchLoopSt :
    List Train_suits → Query_card × (Nat × Option String) →
      Option (Query_card × (Nat × Option String))
  | [], st => some st
  | t :: ts, (qc, acc) =>
    match t.img with
    | none => none
    | some im =>
      let d := suitDiff qc.suit_img im
      matchLoopSt ts (qc, if d < acc.1 then (d, some t.name) else acc)

/-- `match_card` with the card state made explicit: returns the card as left
by the call together with the `(label, score)` pair. -/
def match_card_st (q : Query_card) (ts : List Train_suits) :
    Option (Query_card × (String × Nat)) :=
  let r0 : Nat × Option String := (10000, none)
  let st := if q.suit_img = [] then some (q, r0) else matchLoopSt ts (q, r0)
  st.map (fun a =>
    (a.1, ((if a.2.1 < SUIT_DIFF_MAX then a.2.2.getD "Unknown" else "Unknown"),
      a.2.1)))

/-! ## Adaptive thresholds -/

/-- The corner re-binarization cutoff of `preprocess_card`
(src/Cards.py lines 166-169).  `white_level` is a numpy uint8 scalar and
`CARD_THRESH` a small positive Python int, so `white_level - CARD_THRESH`
stays uint8 and wraps modulo 256; the `<= 0` guard then only matches the
exact value 0. -/
def card_thresh_level (white_level : Nat) : Nat :=
  let thresh_level := (white_level + 256 - CARD_THRESH) % 256
  if thresh_level ≤ 0 then 1 else thresh_level

/-- The cutoff as the specification describes it: `whiteLevel − 30`, floored
at 1 (exact integer arithmetic, no wraparound).  Comparison definition for
claim C6. -/
def card_thresh_level_spec (white_level : Nat) : Nat :=
  if white_level ≤ CARD_THRESH then 1 else white_level - CARD_THRESH

/-- The background sampling and cutoff of `preprocess_image`
(src/Cards.py lines 83-85).  `np.shape(image)[:2]` is `(rows, cols)`, i.e.
`(height, width)`, but the code unpacks it as `img_w, img_h`, so the sampled
pixel is `gray[int(W/100)][int(H/2)]` — row `W/100`, column `H/2` — and the
sample is taken from the unblurred `gray` image.  `bkg_level` is a numpy
uint8 scalar, so `bkg_level + BKG_THRESH` wraps modulo 256. -/
def bkg_thresh_level (image : Frame) (gray : Image) : Nat :=
  let img_w := image.length
  let img_h := (image.getD 0 []).length
  let bkg_level := (gray.getD (img_h / 100) []).getD (img_w / 2) 0
  (bkg_level + BKG_THRESH) % 256

/-- The cutoff as the specification describes it (comparison definition for
claim C7): sample the smoothed image at a row near the top edge (`H/100`)
and the horizontally middle column (`W/2`), then add 60 without wraparound. -/
def bkg_thresh_level_spec (image : Frame) (blur : Image) : Nat :=
  let img_h := image.length
  let img_w := (image.getD 0 []).length
  (blur.getD (img_h / 100) []).getD (img_w / 2) 0 + BKG_THRESH

/-! ## Corner geometry (`flattener`, src/Cards.py lines 253-321) -/

/-- The four approximate corner points, in `approxPolyDP` emission order
(the source's `pts` array of shape `(4,1,2)`, as float32, modelled over ℚ). -/
structure Quad where
  p0 : ℚ × ℚ
  p1 : ℚ × ℚ
  p2 : ℚ × ℚ
  p3 : ℚ × ℚ
deriving DecidableEq

/-- Index into a `Quad` (indices ≥ 3 clamp to the last point). -/
def qget (q : Quad) : Nat → ℚ × ℚ
  | 0 => q.p0
  | 1 => q.p1
  | 2 => q.p2
  | _ => q.p3

/-- Apply a point transformation to all four corners. -/
def mapQuad (f : ℚ × ℚ → ℚ × ℚ) (q : Quad) : Quad :=
  ⟨f q.p0, f q.p1, f q.p2, f q.p3⟩

/-- `np.sum(pts, axis=2)`: per point, x + y. -/
def sumXY (p : ℚ × ℚ) : ℚ := p.1 + p.2

/-- `np.diff(pts, axis=-1)`: per point `[x, y]`, the difference y − x. -/
def diffYX (p : ℚ × ℚ) : ℚ := p.2 - p.1

/-- One step of `np.argmin`'s first-minimum scan: keep `i` unless the value
at `j` is strictly smaller. -/
def pickMin (f : ℚ × ℚ → ℚ) (q : Quad) (i j : Nat) : Nat :=
  if f (qget q j) < f (qget q i) then j else i

/-- One step of `np.argmax`'s first-maximum scan. -/
def pickMax (f : ℚ × ℚ → ℚ) (q : Quad) (i j : Nat) : Nat :=
  if f (qget q i) < f (qget q j) then j else i

/-- `np.argmin(f)` over the four points (first index on ties). -/
def argmin4 (f : ℚ × ℚ → ℚ) (q : Quad) : Nat :=
  pickMin f q (pickMin f q (pickMin f q 0 1) 2) 3

/-- `np.argmax(f)` over the four points (first index on ties). -/
def argmax4 (f : ℚ × ℚ → ℚ) (q : Quad) : Nat :=
  pickMax f q (pickMax f q (pickMax f q 0 1) 2) 3

/-- The ordered source quadrilateral `temp_rect` built by `flattener`
(src/Cards.py lines 256-307): extremal corners
`tl = pts[argmin(x+y)]`, `br = pts[argmax(x+y)]`,
`tr = pts[argmin(y−x)]`, `bl = pts[argmax(y−x)]`, then one of three
orientation branches fills the slots
`[top-left, top-right, bottom-right, bottom-left]`; the three `if` blocks of
the source execute in order with later writes overwriting earlier ones. -/
def temp_rect (q : Quad) (w h : ℚ) : Quad :=
  let tl := qget q (argmin4 sumXY q)
  let br := qget q (argmax4 sumXY q)
  let tr := qget q (argmin4 diffYX q)
  let bl := qget q (argmax4 diffYX q)
  let r0 : Quad := ⟨(0, 0), (0, 0), (0, 0), (0, 0)⟩
  let r1 := if w ≤ 8/10 * h then (⟨tl, tr, br, bl⟩ : Quad) else r0
  let r2 := if 12/10 * h ≤ w then (⟨bl, tl, tr, br⟩ : Quad) else r1
  if 8/10 * h < w ∧ w < 12/10 * h then
    (if q.p1.2 ≤ q.p3.2 then (⟨q.p1, q.p0, q.p3, q.p2⟩ : Quad)
      else (⟨q.p0, q.p3, q.p2, q.p1⟩ : Quad))
  else r2

/-- The corner-role assignment as claim C3 words it (comparison definition):
top-left/bottom-right at min/max of (x+y), top-right at the minimum of
(x−y), bottom-left at the maximum of (x−y), with the same two slot
rotations as the code for portrait and landscape. -/
def temp_rect_claim (q : Quad) (w h : ℚ) : Quad :=
  let tl := qget q (argmin4 sumXY q)
  let br := qget q (argmax4 sumXY q)
  let tr := qget q (argmin4 (fun p => p.1 - p.2) q)
  let bl := qget q (argmax4 (fun p => p.1 - p.2) q)
  let r0 : Quad := ⟨(0, 0), (0, 0), (0, 0), (0, 0)⟩
  let r1 := if w ≤ 8/10 * h then (⟨tl, tr, br, bl⟩ : Quad) else r0
  if 12/10 * h ≤ w then (⟨bl, tl, tr, br⟩ : Quad) else r1

/-- Cyclic rotation of the four role slots (used to test the claim under
every possible "fixed rotation" reading). -/
def rotQuad (q : Quad) : Quad :=
  ⟨q.p1, q.p2, q.p3, q.p0⟩

/-- Quarter-turn of a point about centre `c` (image coordinates, y down):
`(x, y) ↦ (cx − (y − cy), cy + (x − cx))`. -/
def rotQ (c p : ℚ × ℚ) : ℚ × ℚ :=
  (c.1 - (p.2 - c.2), c.2 + (p.1 - c.1))

/-- Half-turn of a point about centre `c`. -/
def rotH (c p : ℚ × ℚ) : ℚ × ℚ :=
  (2 * c.1 - p.1, 2 * c.2 - p.2)

/-- The opposite quarter-turn about centre `c`:
`(x, y) ↦ (cx + (y − cy), cy − (x − cx))`. -/
def rot3Q (c p : ℚ × ℚ) : ℚ × ℚ :=
  (c.1 + (p.2 - c.2), c.2 - (p.1 - c.1))

/-! ## External primitives -/

/-- Hierarchy record of one contour (`hier[0][i]` from `cv2.findContours`):
`(next, previous, first_child, parent)`; only `parent` is consulted, with
`-1` meaning "no parent". -/
structure HierEntry where
  nxt : Int := -1
  prev : Int := -1
  child : Int := -1
  parent : Int := -1
deriving DecidableEq

/-- The external OpenCV primitives the core calls, as abstract functions.
`resample img outH outW r c` is the pixel produced at `(r, c)` by resizing
`img` to `outH × outW`; `warpSamp frame srcQuad r c` is the grayscale pixel
produced at `(r, c)` by `warpPerspective` (followed by `cvtColor` to gray)
from the ordered source quadrilateral `srcQuad` — the output content is a
function of the source frame and the ordered source quadrilateral only. -/
structure CVPrims where
  cvtGray : Frame → Image
  gauss : Image → Image
  contourArea : List (Int × Int) → ℚ
  arcLength : List (Int × Int) → ℚ
  approxPolyDP : List (Int × Int) → ℚ → List (Int × Int)
  boundingRect : List (Int × Int) → Nat × Nat × Nat × Nat
  findCnts : Image → List (List (Int × Int))
  resample : Image → Nat → Nat → Nat → Nat → Nat
  warpSamp : Frame → Quad → Nat → Nat → Nat

/-! ## preprocess_image (src/Cards.py lines 68-89) -/

/-- `preprocess_image`: gray + blur (external), then a binary threshold at
`bkg_thresh_level` over the blurred image. -/
def preprocess_image (cv : CVPrims) (image : Frame) : Image :=
  let gray := cv.cvtGray image
  let blur := cv.gauss gray
  threshold_binary blur (bkg_thresh_level image gray) 255

/-! ## find_cards (src/Cards.py lines 91-131) -/

/-- The validity predicate of `find_cards` (src/Cards.py lines 122-129):
area strictly inside `(CARD_MIN_AREA, CARD_MAX_AREA)`, no parent in the
hierarchy, and the polygon simplification at tolerance 1% of the perimeter
has exactly 4 vertices. -/
def isCard (cv : CVPrims) (c : List (Int × Int)) (he : HierEntry) : Bool :=
  let size := cv.contourArea c
  let peri := cv.arcLength c
  let approx := cv.approxPolyDP c (1/100 * peri)
  decide (size < (CARD_MAX_AREA : ℚ)) && decide ((CARD_MIN_AREA : ℚ) < size)
    && decide (he.parent = -1) && decide (approx.length = 4)

/-- Stable insertion of `x` before the first element `y` with `le x y`. -/
def insertLe (le : α → α → Bool) (x : α) : List α → List α
  | [] => [x]
  | y :: ys => if le x y then x :: y :: ys else y :: insertLe le x ys

/-- Stable insertion sort (models Python's stable `sorted`). -/
def sortBy (le : α → α → Bool) : List α → List α
  | [] => []
  | x :: xs => insertLe le x (sortBy le xs)

/-- The contour/hierarchy pairs of `find_cards`, sorted by contour area in
descending order (`index_sort` keeps each contour aligned with its
hierarchy record). -/
def sortedPairs (cv : CVPrims) (cnts : List (List (Int × Int)))
    (hier : List HierEntry) : List (List (Int × Int) × HierEntry) :=
  sortBy (fun a b => decide (cv.contourArea b.1 ≤ cv.contourArea a.1))
    (cnts.zip hier)

/-- `find_cards` (src/Cards.py lines 91-131): returns the area-sorted
contours and the parallel `cnt_is_card` flag array (1 = card candidate,
0 = not), or two empty lists when there are no contours. -/
def find_cards (cv : CVPrims) (cnts : List (List (Int × Int)))
    (hier : List HierEntry) : List (List (Int × Int)) × List Nat :=
  if cnts.length = 0 then ([], [])
  else
    let ps := sortedPairs cv cnts hier
    (ps.map Prod.fst, ps.map (fun p => if isCard cv p.1 p.2 then 1 else 0))

/-! ## flattener and preprocess_card (src/Cards.py lines 133-189, 253-321) -/

/-- Truncation toward zero, as Python's `int()` on a float. -/
def ratTrunc (q : ℚ) : Int :=
  q.num / (q.den : Int)

/-- First four points of the `approxPolyDP` output as a `Quad` (the
flattener's portrait/landscape role search scans exactly the point array;
candidates reaching it have exactly 4 vertices). -/
def quadOfList (l : List (ℚ × ℚ)) : Quad :=
  ⟨l.getD 0 (0, 0), l.getD 1 (0, 0), l.getD 2 (0, 0), l.getD 3 (0, 0)⟩

/-- `flattener` (src/Cards.py lines 253-321): orders the corners via
`temp_rect`, then perspective-warps onto the fixed 200×300 destination and
converts to grayscale.  The external warp is modelled by `cv.warpSamp`,
sampling pixels as a function of the source frame and the ordered source
quadrilateral; the output raster has exactly `maxHeight = 300` rows of
`maxWidth = 200` pixels. -/
def flattener (cv : CVPrims) (image : Frame) (pts : Quad) (w h : ℚ) : Image :=
  mkImg 300 200 (cv.warpSamp image (temp_rect pts w h))

/-- Suit-glyph isolation from the re-binarized corner crop
(src/Cards.py lines 177-187): find contours in the suit band, sort by area
descending; if none, the suit image stays empty, otherwise crop to the
largest contour's bounding rectangle and resize to
`SUIT_WIDTH × SUIT_HEIGHT` (70×100). -/
def extract_suit (cv : CVPrims) (Qsuit : Image) : Image :=
  let scnts := sortBy
    (fun a b => decide (cv.contourArea b ≤ cv.contourArea a)) (cv.findCnts Qsuit)
  match scnts with
  | [] => []
  | c0 :: _ =>
    let b := cv.boundingRect c0
    let roi := ((Qsuit.drop b.2.1).take b.2.2.2).map
      (fun row => (row.drop b.1).take b.2.2.1)
    mkImg 100 70 (cv.resample roi 100 70)

/-- `preprocess_card` (src/Cards.py lines 133-189), translated statement by
statement: corner approximation, bounding rectangle, centre, 200×300 warp,
corner crop and 4× zoom, white-level sampling with the `card_thresh_level`
cutoff, inverse binarization, suit band `[186:336, 0:128]`, and suit-glyph
extraction. -/
def preprocess_card (cv : CVPrims) (contour : List (Int × Int))
    (image : Frame) : Query_card :=
  let peri := cv.arcLength contour
  let approx := cv.approxPolyDP contour (1/100 * peri)
  let pts : List (ℚ × ℚ) := approx.map (fun p => ((p.1 : ℚ), (p.2 : ℚ)))
  let br := cv.boundingRect contour
  let sumPts := pts.foldl (fun acc p => (acc.1 + p.1, acc.2 + p.2)) (0, 0)
  let cent_x := ratTrunc (sumPts.1 / (pts.length : ℚ))
  let cent_y := ratTrunc (sumPts.2 / (pts.length : ℚ))
  let warp := flattener cv image (quadOfList pts) (br.2.2.1 : ℚ) (br.2.2.2 : ℚ)
  let Qcorner := (warp.take CORNER_HEIGHT).map (fun row => row.take CORNER_WIDTH)
  let zoomH := 4 * Qcorner.length
  let zoomW := 4 * (Qcorner.getD 0 []).length
  let Qcorner_zoom := mkImg zoomH zoomW (cv.resample Qcorner zoomH zoomW)
  let white_level := (Qcorner_zoom.getD 15 []).getD (CORNER_WIDTH * 4 / 2) 0
  let query_thresh := threshold_binary_inv Qcorner_zoom
    (card_thresh_level white_level) 255
  let Qsuit := ((query_thresh.drop 186).take 150).map (fun row => row.take 128)
  { contour := contour
    corner_pts := pts
    width := br.2.2.1
    height := br.2.2.2
    center := [cent_x, cent_y]
    warp := warp
    suit_img := extract_suit cv Qsuit }

/-! ## Concrete instances used by counterexamples and witnesses -/

/-- All-zero 70×100 glyph. -/
def gIdent : Image := List.replicate 100 (List.replicate 70 0)

/-- 70×100 glyph differing from `gIdent` in a single pixel by 100
(total absolute difference 100, hence integer score 100 / 255 = 0). -/
def gNear : Image :=
  (100 :: List.replicate 69 0) :: List.replicate 99 (List.replicate 70 0)

/-- All-255 70×100 glyph (score 7000 against `gIdent`). -/
def gFar : Image := List.replicate 100 (List.replicate 70 255)

def tSpades : Train_suits := { img := some gNear, name := "Spades" }
def tDiamonds : Train_suits := { img := some gIdent, name := "Diamonds" }
def tClubs : Train_suits := { img := some gFar, name := "Clubs" }
def tHearts : Train_suits := { img := some gFar, name := "Hearts" }

/-- Query card whose glyph is pixel-identical to `tDiamonds`' template. -/
def qcTie : Query_card := { suit_img := gIdent }

/-- Query card with an empty suit image. -/
def qcEmpty : Query_card := { }

/-- A template set whose four images all loaded as all-zero glyphs. -/
def tsZero : List Train_suits :=
  [{ img := some gIdent, name := "Spades" },
   { img := some gIdent, name := "Diamonds" },
   { img := some gIdent, name := "Clubs" },
   { img := some gIdent, name := "Hearts" }]

/-- Concrete portrait rectangle for the C3 counterexample, in clockwise
`approxPolyDP`-style order. -/
def qC3 : Quad := ⟨(0, 0), (10, 0), (10, 30), (0, 30)⟩

/-- Corners of a 20×40 portrait card centred at (50, 50) for the C4
counterexample. -/
def qC4 : Quad := ⟨(40, 30), (60, 30), (60, 70), (40, 70)⟩

/-- Concrete external primitives for witnesses: a 4-vertex polygon
approximation, area 30000, no suit-band contours, constant samplers. -/
def cvW : CVPrims :=
  { cvtGray := fun _ => []
    gauss := fun img => img
    contourArea := fun _ => 30000
    arcLength := fun _ => 400
    approxPolyDP := fun _ _ => [(0, 0), (100, 0), (100, 300), (0, 300)]
    boundingRect := fun _ => (0, 0, 100, 300)
    findCnts := fun _ => []
    resample := fun _ _ _ _ _ => 0
    warpSamp := fun _ _ _ _ => 0 }

/-- A concrete contour and hierarchy record for witnesses. -/
def cntW : List (Int × Int) := [(0, 0), (100, 0), (100, 300), (0, 300)]

def heW : HierEntry := { }

/-- A frame for witnesses. -/
def frameW : Frame := []

/-- An imread model for witnesses: every template file reads as `gIdent`. -/
def readW : String → Option Image := fun _ => some gIdent

/-- An imread model where no template file is readable. -/
def readNone : String → Option Image := fun _ => none

/-- 720×1280 grayscale image for the C7 failing input: intensity 200 at the
top-centre pixel (row 7 = 720/100, column 640 = 1280/2) the claim describes,
intensity 50 everywhere else — in particular at the pixel the code actually
samples (row 12 = 1280/100, column 360 = 720/2). -/
def gray720 : Image :=
  mkImg 720 1280 (fun r c => if r = 7 ∧ c = 640 then 200 else 50)

/-- 720×1280 grayscale image whose code-sampled pixel (row 12, column 360)
is bright (240), making the `+ 60` cutoff wrap modulo 256. -/
def grayBright : Image :=
  mkImg 720 1280 (fun r c => if r = 12 ∧ c = 360 then 240 else 50)

/-- An all-black 720×1280 colour frame (1280 wide, 720 high). -/
def frame720 : Frame :=
  List.replicate 720 (List.replicate 1280 (0, 0, 0))

/-! ## Helper lemmas -/

theorem sum_le_mul_of_forall_le (n : Nat) :
    ∀ l : List Nat, (∀ x ∈ l, x ≤ n) → l.sum ≤ l.length * n := by
  intro l
  induction l with
  | nil => intro _; simp
  | cons x xs ih =>
    intro h
    have hx : x ≤ n := h x (List.mem_cons_self _ _)
    have hxs := ih (fun y hy => h y (List.mem_cons_of_mem _ hy))
    simp only [List.sum_cons, List.length_cons]
    calc x + xs.sum ≤ n + xs.length * n := Nat.add_le_add hx hxs
    _ = (xs.length + 1) * n := by ring

theorem dist_le_255 {p q : Nat} (hp : p ≤ 255) (hq : q ≤ 255) :
    Nat.dist p q ≤ 255 := by
  simp only [Nat.dist]
  omega

theorem absdiffSum_le (a b : Image) (ha : isGlyph a) (hb : isGlyph b) :
    absdiffSum a b ≤ 1785000 := by
  unfold absdiffSum
  have hrow : ∀ x ∈ (a.zip b).map
      (fun rp => ((rp.1.zip rp.2).map (fun p => Nat.dist p.1 p.2)).sum),
      x ≤ 17850 := by
    intro x hx
    obtain ⟨rp, hrp, hxeq⟩ := List.mem_map.mp hx
    obtain ⟨h1, h2⟩ := List.of_mem_zip hrp
    have hlen1 : rp.1.length = 70 := (ha.2 rp.1 h1).1
    have hcell : ∀ y ∈ (rp.1.zip rp.2).map (fun p => Nat.dist p.1 p.2),
        y ≤ 255 := by
      intro y hy
      obtain ⟨pp, hpp, hyeq⟩ := List.mem_map.mp hy
      obtain ⟨hp1, hp2⟩ := List.of_mem_zip hpp
      have b1 := (ha.2 rp.1 h1).2 pp.1 hp1
      have b2 := (hb.2 rp.2 h2).2 pp.2 hp2
      exact hyeq ▸ dist_le_255 b1 b2
    have := sum_le_mul_of_forall_le 255 _ hcell
    have hzlen : ((rp.1.zip rp.2).map (fun p => Nat.dist p.1 p.2)).length ≤ 70 := by
      rw [List.length_map, List.length_zip]
      exact inf_le_left.trans (le_of_eq hlen1)
    calc x = ((rp.1.zip rp.2).map (fun p => Nat.dist p.1 p.2)).sum := hxeq.symm
    _ ≤ ((rp.1.zip rp.2).map (fun p => Nat.dist p.1 p.2)).length * 255 := this
    _ ≤ 70 * 255 := Nat.mul_le_mul_right 255 hzlen
    _ = 17850 := by norm_num
  have htot := sum_le_mul_of_forall_le 17850 _ hrow
  have hlen : ((a.zip b).map
      (fun rp => ((rp.1.zip rp.2).map (fun p => Nat.dist p.1 p.2)).sum)).length
      ≤ 100 := by
    rw [List.length_map, List.length_zip]
    exact inf_le_left.trans (le_of_eq ha.1)
  calc ((a.zip b).map
      (fun rp => ((rp.1.zip rp.2).map (fun p => Nat.dist p.1 p.2)).sum)).sum
      ≤ _ * 17850 := htot
  _ ≤ 100 * 17850 := Nat.mul_le_mul_right 17850 hlen
  _ = 1785000 := by norm_num

theorem suitDiff_le_7000 (a b : Image) (ha : isGlyph a) (hb : isGlyph b) :
    suitDiff a b ≤ 7000 := by
  unfold suitDiff
  calc absdiffSum a b / 255 ≤ 1785000 / 255 :=
    Nat.div_le_div_right (absdiffSum_le a b ha hb)
  _ = 7000 := by norm_num

theorem rowDiff_self_eq_zero :
    ∀ l : List Nat, ((l.zip l).map (fun p => Nat.dist p.1 p.2)).sum = 0 := by
  intro l
  induction l with
  | nil => rfl
  | cons x xs ih => simp [List.zip_cons_cons, Nat.dist_self, ih]

theorem suitDiff_self (a : Image) : suitDiff a a = 0 := by
  have h : absdiffSum a a = 0 := by
    unfold absdiffSum
    induction a with
    | nil => rfl
    | cons r rs ih => simp [List.zip_cons_cons, rowDiff_self_eq_zero, ih]
  simp [suitDiff, h]

theorem matchLoop_eq_fold (g : Image) :
    ∀ (ts : List Train_suits) (acc : Nat × Option String),
      (∀ t ∈ ts, t.img ≠ none) →
      matchLoop g ts acc = some (matchFold g ts acc) := by
  intro ts
  induction ts with
  | nil => intro acc _; rfl
  | cons t ts ih =>
    intro acc h
    have ht : t.img ≠ none := h t (List.mem_cons_self _ _)
    match himg : t.img with
    | none => exact absurd himg ht
    | some im =>
      simp only [matchLoop, matchFold, score, himg, Option.getD_some]
      exact ih _ (fun u hu => h u (List.mem_cons_of_mem _ hu))

theorem matchFold_spec (g : Image) :
    ∀ (ts : List Train_suits) (d : Nat) (nm : Option String),
      (matchFold g ts (d, nm)).1 ≤ d ∧
      (∀ t ∈ ts, (matchFold g ts (d, nm)).1 ≤ score g t) ∧
      (((matchFold g ts (d, nm)).1 = d ∧ (matchFold g ts (d, nm)).2 = nm) ∨
        ∃ j, ∃ hj : j < ts.length,
          score g (ts.get ⟨j, hj⟩) = (matchFold g ts (d, nm)).1 ∧
          (matchFold g ts (d, nm)).1 < d ∧
          (∀ i, (hi : i < j) →
            (matchFold g ts (d, nm)).1 < score g (ts.get ⟨i, hi.trans hj⟩)) ∧
          (matchFold g ts (d, nm)).2 = some (ts.get ⟨j, hj⟩).name) := by
  intro ts
  induction ts with
  | nil =>
    intro d nm
    exact ⟨le_refl d, by simp, Or.inl ⟨rfl, rfl⟩⟩
  | cons t ts ih =>
    intro d nm
    by_cases hd : score g t < d
    · have heq : matchFold g (t :: ts) (d, nm)
          = matchFold g ts (score g t, some t.name) := by
        simp only [matchFold, if_pos hd]
      rw [heq]
      obtain ⟨h1, h2, h3⟩ := ih (score g t) (some t.name)
      refine ⟨h1.trans hd.le, ?_, ?_⟩
      · intro u hu
        rcases List.mem_cons.mp hu with huu | hu2
        · rw [huu]; exact h1
        · exact h2 u hu2
      · rcases h3 with ⟨hfd, hfn⟩ | ⟨j, hj, hsc, hlt, hfirst, hname⟩
        · refine Or.inr ⟨0, Nat.succ_pos _, ?_, ?_, ?_, ?_⟩
          · exact hfd.symm
          · rw [hfd]; exact hd
          · intro i hi; omega
          · exact hfn
        · refine Or.inr ⟨j + 1, Nat.succ_lt_succ hj, hsc, hlt.trans hd, ?_, hname⟩
          intro i hi
          match i, hi with
          | 0, _ => exact hlt
          | (i2 + 1), hi2 => exact hfirst i2 (Nat.lt_of_succ_lt_succ hi2)
    · have heq : matchFold g (t :: ts) (d, nm) = matchFold g ts (d, nm) := by
        simp only [matchFold, if_neg hd]
      rw [heq]
      obtain ⟨h1, h2, h3⟩ := ih d nm
      have hdle : d ≤ score g t := Nat.le_of_not_lt hd
      refine ⟨h1, ?_, ?_⟩
      · intro u hu
        rcases List.mem_cons.mp hu with huu | hu2
        · rw [huu]; exact h1.trans hdle
        · exact h2 u hu2
      · rcases h3 with hl | ⟨j, hj, hsc, hlt, hfirst, hname⟩
        · exact Or.inl hl
        · refine Or.inr ⟨j + 1, Nat.succ_lt_succ hj, hsc, hlt, ?_, hname⟩
          intro i hi
          match i, hi with
          | 0, _ => exact hlt.trans_le hdle
          | (i2 + 1), hi2 => exact hfirst i2 (Nat.lt_of_succ_lt_succ hi2)

/-! ## Claim C1 -/

/-- Claim C1 (amended): for every query card and 4-template set whose images
all loaded as well-formed 70×100 glyphs — (a) an empty glyph yields
`("Unknown", 10000)` (the sentinel maximum score); (b) for a non-empty glyph
the returned score is the minimum over the templates of
`int(sum(|glyph − template|)/255)`, the winner is the first template
attaining that minimum (strict-improvement fold), and the label is that
template's name iff the best score is strictly below `SUIT_DIFF_MAX` (700),
else "Unknown"; (c) a glyph pixel-identical to a template yields score 0
and that template's name, PROVIDED no earlier template also attains integer
score 0 (the amendment: with integer division by 255, an earlier
non-identical template whose total absolute difference is below 255 also
scores 0 and wins the tie). -/
theorem match_card_spec_amended (q : Query_card) (ts : List Train_suits)
    (hts : ts.length = 4)
    (himgs : ∀ t ∈ ts, ∃ im, t.img = some im ∧ isGlyph im)
    (hg : q.suit_img ≠ [] → isGlyph q.suit_img) :
    (q.suit_img = [] → match_card q ts = some ("Unknown", 10000)) ∧
    (q.suit_img ≠ [] →
      ∃ lab best, match_card q ts = some (lab, best) ∧
        (∀ t ∈ ts, best ≤ score q.suit_img t) ∧
        ∃ j, ∃ hj : j < ts.length,
          score q.suit_img (ts.get ⟨j, hj⟩) = best ∧
          (∀ i, (hi : i < j) →
            best < score q.suit_img (ts.get ⟨i, hi.trans hj⟩)) ∧
          lab = if best < SUIT_DIFF_MAX then (ts.get ⟨j, hj⟩).name
            else "Unknown") ∧
    (∀ j, (hj : j < ts.length) → q.suit_img ≠ [] →
      (ts.get ⟨j, hj⟩).img = some q.suit_img →
      (∀ i, (hi : i < j) → score q.suit_img (ts.get ⟨i, hi.trans hj⟩) ≠ 0) →
      match_card q ts = some ((ts.get ⟨j, hj⟩).name, 0)) := by
  have key : q.suit_img ≠ [] →
      match_card q ts = some
        ((if (matchFold q.suit_img ts (10000, none)).1 < SUIT_DIFF_MAX
          then (matchFold q.suit_img ts (10000, none)).2.getD "Unknown"
          else "Unknown"), (matchFold q.suit_img ts (10000, none)).1) ∧
      ∃ j, ∃ hj : j < ts.length,
        score q.suit_img (ts.get ⟨j, hj⟩)
          = (matchFold q.suit_img ts (10000, none)).1 ∧
        (∀ i, (hi : i < j) →
          (matchFold q.suit_img ts (10000, none)).1
            < score q.suit_img (ts.get ⟨i, hi.trans hj⟩)) ∧
        (matchFold q.suit_img ts (10000, none)).2
          = some (ts.get ⟨j, hj⟩).name := by
    intro hne
    have hnn : ∀ t ∈ ts, t.img ≠ none := by
      intro t ht
      obtain ⟨im, hs, _⟩ := himgs t ht
      simp [hs]
    have hloop := matchLoop_eq_fold q.suit_img ts (10000, none) hnn
    constructor
    · simp only [match_card, if_neg hne, hloop, Option.map_some']
    · obtain ⟨hle, hmin, hdisj⟩ := matchFold_spec q.suit_img ts 10000 none
      rcases hdisj with ⟨hfd, _⟩ | ⟨j, hj, hsc, _, hfirst, hname⟩
      · exfalso
        have h0 : 0 < ts.length := by omega
        have ht0 : ts.get ⟨0, h0⟩ ∈ ts := List.get_mem ts 0 h0
        obtain ⟨im, hs, hgl⟩ := himgs _ ht0
        have hsc0 : score q.suit_img (ts.get ⟨0, h0⟩) ≤ 7000 := by
          rw [score, hs, Option.getD_some]
          exact suitDiff_le_7000 _ _ (hg hne) hgl
        have := hmin _ ht0
        omega
      · exact ⟨j, hj, hsc, hfirst, hname⟩
  refine ⟨?_, ?_, ?_⟩
  · intro he
    simp [match_card, he, SUIT_DIFF_MAX]
  · intro hne
    obtain ⟨hmc, j, hj, hsc, hfirst, hname⟩ := key hne
    refine ⟨_, _, hmc, ?_, j, hj, hsc, hfirst, ?_⟩
    · exact (matchFold_spec q.suit_img ts 10000 none).2.1
    · by_cases hb : (matchFold q.suit_img ts (10000, none)).1 < SUIT_DIFF_MAX
      · simp [hb, hname]
      · simp [hb]
  · intro j hj hne hid hz
    obtain ⟨hmc, j0, hj0, hsc0, hfirst0, hname0⟩ := key hne
    have hmin := (matchFold_spec q.suit_img ts 10000 none).2.1
    have hscj : score q.suit_img (ts.get ⟨j, hj⟩) = 0 := by
      rw [score, hid, Option.getD_some]
      exact suitDiff_self _
    have hjmem : ts.get ⟨j, hj⟩ ∈ ts := List.get_mem ts j hj
    have hb0 : (matchFold q.suit_img ts (10000, none)).1 = 0 := by
      have := hmin _ hjmem
      omega
    have hjeq : j0 = j := by
      rcases Nat.lt_trichotomy j0 j with h | h | h
      · exfalso
        apply hz j0 h
        have heq : ts.get ⟨j0, h.trans hj⟩ = ts.get ⟨j0, hj0⟩ := rfl
        rw [heq, hsc0, hb0]
      · exact h
      · exfalso
        have hx := hfirst0 j h
        have heq : ts.get ⟨j, h.trans hj0⟩ = ts.get ⟨j, hj⟩ := rfl
        rw [heq, hscj] at hx
        omega
    have hgeq : ts.get ⟨j0, hj0⟩ = ts.get ⟨j, hj⟩ := by
      subst hjeq
      rfl
    rw [hmc, hb0, hname0, hgeq]
    simp [SUIT_DIFF_MAX]

/-- Witness for `match_card_spec_amended` at the concrete card `qcEmpty`
and template set `tsZero`. -/
theorem match_card_spec_amended_witness :
    tsZero.length = 4 ∧
    (∀ t ∈ tsZero, ∃ im, t.img = some im ∧ isGlyph im) ∧
    (qcEmpty.suit_img ≠ [] → isGlyph qcEmpty.suit_img) ∧
    ((qcEmpty.suit_img = [] →
        match_card qcEmpty tsZero = some ("Unknown", 10000)) ∧
      (qcEmpty.suit_img ≠ [] →
        ∃ lab best, match_card qcEmpty tsZero = some (lab, best) ∧
          (∀ t ∈ tsZero, best ≤ score qcEmpty.suit_img t) ∧
          ∃ j, ∃ hj : j < tsZero.length,
            score qcEmpty.suit_img (tsZero.get ⟨j, hj⟩) = best ∧
            (∀ i, (hi : i < j) →
              best < score qcEmpty.suit_img (tsZero.get ⟨i, hi.trans hj⟩)) ∧
            lab = if best < SUIT_DIFF_MAX then (tsZero.get ⟨j, hj⟩).name
              else "Unknown") ∧
      (∀ j, (hj : j < tsZero.length) → qcEmpty.suit_img ≠ [] →
        (tsZero.get ⟨j, hj⟩).img = some qcEmpty.suit_img →
        (∀ i, (hi : i < j) →
          score qcEmpty.suit_img (tsZero.get ⟨i, hi.trans hj⟩) ≠ 0) →
        match_card qcEmpty tsZero
          = some ((tsZero.get ⟨j, hj⟩).name, 0))) := by
  have h1 : tsZero.length = 4 := rfl
  have h2 : ∀ t ∈ tsZero, ∃ im, t.img = some im ∧ isGlyph im := by
    intro t ht
    simp only [tsZero, List.mem_cons, List.not_mem_nil, or_false] at ht
    rcases ht with rfl | rfl | rfl | rfl
    all_goals exact ⟨gIdent, rfl, by decide⟩
  have h3 : qcEmpty.suit_img ≠ [] → isGlyph qcEmpty.suit_img :=
    fun h => absurd rfl h
  exact ⟨h1, h2, h3, match_card_spec_amended qcEmpty tsZero h1 h2 h3⟩

/-- Claim C1 counterexample: the glyph of `qcTie` is pixel-identical to
exactly one template (`tDiamonds`), yet `match_card` returns the name of the
earlier template `tSpades`, because `tSpades`' total absolute difference is
100 and `int(100/255) = 0` already matches the minimal score, and the
strict-improvement fold keeps the first scorer; the claim as stated (the
identical template's name is returned) is therefore false. -/
theorem match_card_tie_counterexample :
    qcTie.suit_img = gIdent ∧
    tDiamonds.img = some gIdent ∧ tDiamonds.name = "Diamonds" ∧
    tSpades.img ≠ some gIdent ∧ tClubs.img ≠ some gIdent ∧
    tHearts.img ≠ some gIdent ∧
    match_card qcTie [tSpades, tDiamonds, tClubs, tHearts]
      = some ("Spades", 0) ∧
    ("Spades" : String) ≠ "Diamonds" := by
  refine ⟨rfl, rfl, rfl, by decide, by decide, by decide, by rfl, by decide⟩

/-! ## Claim C5 -/

/-- Claim C5 evaluation: with every template file unreadable (`cv2.imread`
returning None), `load_suits` still returns a full 4-entry list with `none`
images and signals no error at all; a card with an empty glyph is then
matched "successfully" (silently labelled Unknown), and the missing images
only surface as a failure when `match_card` first differences a non-empty
glyph mid-frame — not as a startup configuration error. -/
theorem load_suits_no_validation :
    (load_suits readNone "missing/").length = 4 ∧
    (∀ t ∈ load_suits readNone "missing/", t.img = none) ∧
    match_card qcEmpty (load_suits readNone "missing/")
      = some ("Unknown", 10000) ∧
    match_card qcTie (load_suits readNone "missing/") = none := by
  refine ⟨rfl, by decide, by rfl, by rfl⟩

/-! ## Claim C6 -/

/-- Claim C6 evaluation: `white_level - CARD_THRESH` is numpy uint8
arithmetic, so for a sampled white level of 10 the code's cutoff is
`(10 − 30) mod 256 = 236`, not the floored value 1 the claim (and the
code's own `<= 0` guard) intend; the guard only ever fires at the exact
value 30. -/
theorem card_thresh_wraparound :
    card_thresh_level 10 = 236 ∧ card_thresh_level_spec 10 = 1 ∧
    card_thresh_level 30 = 1 ∧ card_thresh_level 200 = 170 ∧
    (236 : Nat) ≠ 1 := by
  decide

/-! ## Claim C7 -/

/-- Claim C7 evaluation: on a 1280×720 frame whose top-centre pixel
(row 7 = H/100, column 640 = W/2) has intensity 200 and all other pixels 50,
the code's cutoff is `(50 + 60) mod 256 = 110` — it samples row
12 = W/100, column 360 = H/2, because `np.shape(image)[:2]` is unpacked
with width and height swapped — while the claim's cutoff is 200 + 60 = 260.
On `grayBright` (code-sampled pixel 240) the uint8 sum also wraps:
`(240 + 60) mod 256 = 44`. -/
theorem bkg_sample_divergence :
    bkg_thresh_level frame720 gray720 = 110 ∧
    bkg_thresh_level_spec frame720 gray720 = 260 ∧
    bkg_thresh_level frame720 grayBright = 44 ∧
    (110 : Nat) ≠ 260 := by
  decide

/-! ## Claim C10 -/

theorem matchLoopSt_eq (qc : Query_card) :
    ∀ (ts : List Train_suits) (acc : Nat × Option String),
      matchLoopSt ts (qc, acc)
        = (matchLoop qc.suit_img ts acc).map (fun a => (qc, a)) := by
  intro ts
  induction ts with
  | nil => intro acc; rfl
  | cons t ts ih =>
    intro acc
    cases himg : t.img with
    | none => simp [matchLoopSt, matchLoop, himg]
    | some im =>
      simp only [matchLoopSt, matchLoop, himg]
      exact ih _

/-- Claim C10: `match_card` leaves the query card unchanged — the
state-passing translation returns the card with every field equal to the
input's, and the match result is delivered only through the returned
`(label, score)` pair. -/
theorem match_card_pure (q : Query_card) (ts : List Train_suits)
    (qr : Query_card) (lab : String) (sc : Nat)
    (h : match_card_st q ts = some (qr, (lab, sc))) :
    qr = q ∧ qr.contour = q.contour ∧ qr.width = q.width ∧
    qr.height = q.height ∧ qr.corner_pts = q.corner_pts ∧
    qr.center = q.center ∧ qr.warp = q.warp ∧ qr.suit_img = q.suit_img ∧
    qr.best_suit_match = q.best_suit_match ∧ qr.suit_diff = q.suit_diff ∧
    match_card q ts = some (lab, sc) := by
  have hq : qr = q ∧ match_card q ts = some (lab, sc) := by
    by_cases he : q.suit_img = []
    · simp only [match_card_st, if_pos he, Option.map_some',
        Option.some.injEq, Prod.mk.injEq] at h
      refine ⟨h.1.symm, ?_⟩
      simp only [match_card, if_pos he, Option.map_some', Option.some.injEq,
        Prod.mk.injEq]
      exact ⟨h.2.1, h.2.2⟩
    · simp only [match_card_st, if_neg he, matchLoopSt_eq q ts (10000, none)]
        at h
      cases hm : matchLoop q.suit_img ts (10000, none) with
      | none => rw [hm] at h; simp at h
      | some a =>
        rw [hm] at h
        simp only [Option.map_some', Option.some.injEq, Prod.mk.injEq] at h
        refine ⟨h.1.symm, ?_⟩
        simp only [match_card, if_neg he, hm, Option.map_some',
          Option.some.injEq, Prod.mk.injEq]
        exact ⟨h.2.1, h.2.2⟩
  obtain ⟨h1, h2⟩ := hq
  subst h1
  exact ⟨rfl, rfl, rfl, rfl, rfl, rfl, rfl, rfl, rfl, rfl, h2⟩

/-- Witness for `match_card_pure` at `qcEmpty` and `tsZero`. -/
theorem match_card_pure_witness :
    match_card_st qcEmpty tsZero = some (qcEmpty, ("Unknown", 10000)) ∧
    (qcEmpty = qcEmpty ∧ qcEmpty.contour = qcEmpty.contour ∧
      qcEmpty.width = qcEmpty.width ∧ qcEmpty.height = qcEmpty.height ∧
      qcEmpty.corner_pts = qcEmpty.corner_pts ∧
      qcEmpty.center = qcEmpty.center ∧ qcEmpty.warp = qcEmpty.warp ∧
      qcEmpty.suit_img = qcEmpty.suit_img ∧
      qcEmpty.best_suit_match = qcEmpty.best_suit_match ∧
      qcEmpty.suit_diff = qcEmpty.suit_diff ∧
      match_card qcEmpty tsZero = some ("Unknown", 10000)) := by
  have h : match_card_st qcEmpty tsZero
      = some (qcEmpty, ("Unknown", 10000)) := rfl
  exact ⟨h, match_card_pure qcEmpty tsZero qcEmpty "Unknown" 10000 h⟩

/-! ## Claims C2 and C9 -/

/-- Claim C2: a contour/flag position of the `find_cards` output carries
flag 1 exactly when the contour's area lies strictly inside
`(CARD_MIN_AREA, CARD_MAX_AREA)`, its hierarchy record has no parent, and
its polygon simplification at tolerance 1% of the perimeter has exactly 4
vertices; and any contour whose area is outside the open area band is
flagged 0 regardless of its vertex count. -/
theorem find_cards_flag_criterion (cv : CVPrims)
    (cnts : List (List (Int × Int))) (hier : List HierEntry) (i : Nat)
    (c : List (Int × Int)) (p : List (Int × Int) × HierEntry)
    (hc : (find_cards cv cnts hier).1.get? i = some c)
    (hp : (sortedPairs cv cnts hier).get? i = some p) :
    c = p.1 ∧
    ((find_cards cv cnts hier).2.get? i = some 1 ↔
      ((CARD_MIN_AREA : ℚ) < cv.contourArea c ∧
        cv.contourArea c < (CARD_MAX_AREA : ℚ) ∧
        p.2.parent = -1 ∧
        (cv.approxPolyDP c (1/100 * cv.arcLength c)).length = 4)) ∧
    (¬ ((CARD_MIN_AREA : ℚ) < cv.contourArea c ∧
        cv.contourArea c < (CARD_MAX_AREA : ℚ)) →
      (find_cards cv cnts hier).2.get? i = some 0) := by
  by_cases hz : cnts.length = 0
  · rw [find_cards, if_pos hz] at hc
    simp at hc
  · have h1 : (find_cards cv cnts hier).1
        = (sortedPairs cv cnts hier).map Prod.fst := by
      rw [find_cards, if_neg hz]
    have h2 : (find_cards cv cnts hier).2
        = (sortedPairs cv cnts hier).map
          (fun p => if isCard cv p.1 p.2 then 1 else 0) := by
      rw [find_cards, if_neg hz]
    rw [h1, List.get?_map, hp, Option.map_some', Option.some.injEq] at hc
    have hflag : (find_cards cv cnts hier).2.get? i
        = some (if isCard cv p.1 p.2 then 1 else 0) := by
      rw [h2, List.get?_map, hp, Option.map_some']
    subst hc
    refine ⟨rfl, ?_, ?_⟩
    · rw [hflag]
      constructor
      · intro hone
        by_cases hb : isCard cv p.1 p.2
        · simp only [isCard, Bool.and_eq_true, decide_eq_true_eq] at hb
          exact ⟨hb.1.1.2, hb.1.1.1, hb.1.2, hb.2⟩
        · simp only [if_neg hb, Option.some.injEq] at hone
          omega
      · intro hcrit
        have hb : isCard cv p.1 p.2 = true := by
          simp only [isCard, Bool.and_eq_true, decide_eq_true_eq]
          exact ⟨⟨⟨hcrit.2.1, hcrit.1⟩, hcrit.2.2.1⟩, hcrit.2.2.2⟩
        rw [if_pos hb]
    · intro hout
      rw [hflag]
      have hb : ¬ isCard cv p.1 p.2 = true := by
        intro hcon
        simp only [isCard, Bool.and_eq_true, decide_eq_true_eq] at hcon
        exact hout ⟨hcon.1.1.2, hcon.1.1.1⟩
      rw [if_neg hb]

/-- Witness for `find_cards_flag_criterion` on a one-contour input. -/
theorem find_cards_flag_criterion_witness :
    (find_cards cvW [cntW] [heW]).1.get? 0 = some cntW ∧
    (sortedPairs cvW [cntW] [heW]).get? 0 = some (cntW, heW) ∧
    (cntW = (cntW, heW).1 ∧
      ((find_cards cvW [cntW] [heW]).2.get? 0 = some 1 ↔
        ((CARD_MIN_AREA : ℚ) < cvW.contourArea cntW ∧
          cvW.contourArea cntW < (CARD_MAX_AREA : ℚ) ∧
          (cntW, heW).2.parent = -1 ∧
          (cvW.approxPolyDP cntW (1/100 * cvW.arcLength cntW)).length = 4)) ∧
      (¬ ((CARD_MIN_AREA : ℚ) < cvW.contourArea cntW ∧
          cvW.contourArea cntW < (CARD_MAX_AREA : ℚ)) →
        (find_cards cvW [cntW] [heW]).2.get? 0 = some 0)) := by
  have h1 : (find_cards cvW [cntW] [heW]).1.get? 0 = some cntW := rfl
  have h2 : (sortedPairs cvW [cntW] [heW]).get? 0 = some (cntW, heW) := rfl
  exact ⟨h1, h2, find_cards_flag_criterion cvW [cntW] [heW] 0 cntW (cntW, heW) h1 h2⟩

/-- Claim C9: `find_cards` always returns a contour list and a flag list of
the same length (one flag per sorted contour, in the same order, both being
images of the same sorted pair list), and an input with no contours yields
two empty lists; the function is total. -/
theorem find_cards_parallel (cv : CVPrims)
    (cnts : List (List (Int × Int))) (hier : List HierEntry) :
    (find_cards cv cnts hier).1.length = (find_cards cv cnts hier).2.length ∧
    (cnts = [] → find_cards cv cnts hier = ([], [])) := by
  constructor
  · by_cases hz : cnts.length = 0
    · rw [find_cards, if_pos hz]
      rfl
    · rw [find_cards, if_neg hz]
      simp
  · intro h
    subst h
    rfl

/-- Witness for `find_cards_parallel` on the empty contour list. -/
theorem find_cards_parallel_witness :
    (find_cards cvW [] []).1.length = (find_cards cvW [] []).2.length ∧
    find_cards cvW [] [] = ([], []) := by
  have h := find_cards_parallel cvW [] []
  exact ⟨h.1, h.2 rfl⟩

/-! ## Claim C8 -/

theorem mkImg_length (hgt wdt : Nat) (f : Nat → Nat → Nat) :
    (mkImg hgt wdt f).length = hgt := by
  simp [mkImg]

theorem mkImg_rows (hgt wdt : Nat) (f : Nat → Nat → Nat) :
    ∀ r ∈ mkImg hgt wdt f, r.length = wdt := by
  intro r hr
  simp only [mkImg, List.mem_map] at hr
  obtain ⟨i, _, rfl⟩ := hr
  simp

theorem extract_suit_shape (cv : CVPrims) (s : Image) :
    extract_suit cv s = [] ∨
    ((extract_suit cv s).length = 100 ∧
      ∀ r ∈ extract_suit cv s, r.length = 70) := by
  rcases hs : sortBy (fun a b => decide (cv.contourArea b ≤ cv.contourArea a))
      (cv.findCnts s) with _ | ⟨c0, rest⟩
  · left
    simp only [extract_suit, hs]
  · right
    simp only [extract_suit, hs]
    exact ⟨mkImg_length _ _ _, mkImg_rows _ _ _⟩

theorem matchLoop_name (g : Image) :
    ∀ (ts : List Train_suits) (acc r : Nat × Option String),
      matchLoop g ts acc = some r →
      r.2 = acc.2 ∨ ∃ t ∈ ts, r.2 = some t.name := by
  intro ts
  induction ts with
  | nil =>
    intro acc r h
    simp only [matchLoop, Option.some.injEq] at h
    subst h
    exact Or.inl rfl
  | cons t ts ih =>
    intro acc r h
    cases himg : t.img with
    | none => simp [matchLoop, himg] at h
    | some im =>
      simp only [matchLoop, himg] at h
      rcases ih _ r h with hacc | ⟨u, hu, hname⟩
      · by_cases hd : suitDiff g im < acc.1
        · rw [if_pos hd] at hacc
          exact Or.inr ⟨t, List.mem_cons_self _ _, hacc⟩
        · rw [if_neg hd] at hacc
          exact Or.inl hacc
      · exact Or.inr ⟨u, List.mem_cons_of_mem _ hu, hname⟩

theorem load_suits_names (read : String → Option Image) (fp : String) :
    ∀ t ∈ load_suits read fp,
      t.name ∈ ["Spades", "Diamonds", "Clubs", "Hearts"] := by
  intro t ht
  simp only [load_suits, List.mem_map] at ht
  obtain ⟨s, hs, rfl⟩ := ht
  simpa using hs

/-- Claim C8: for any contour flagged as a card candidate and any template
set produced by the loader, the `Query_card` built by `preprocess_card` and
scored by `match_card` has exactly 4 corner points, a 300-row × 200-column
rectified image, a suit glyph that is either empty or 100 rows × 70 columns,
a nonnegative match score, and a label among the four suit names and
"Unknown". -/
theorem card_invariants (cv : CVPrims) (c : List (Int × Int)) (he : HierEntry)
    (image : Frame) (read : String → Option Image) (fp : String)
    (lab : String) (sc : Nat)
    (hflag : isCard cv c he = true)
    (hmatch : match_card (preprocess_card cv c image) (load_suits read fp)
      = some (lab, sc)) :
    (preprocess_card cv c image).corner_pts.length = 4 ∧
    (preprocess_card cv c image).warp.length = 300 ∧
    (∀ r ∈ (preprocess_card cv c image).warp, r.length = 200) ∧
    ((preprocess_card cv c image).suit_img = [] ∨
      ((preprocess_card cv c image).suit_img.length = 100 ∧
        ∀ r ∈ (preprocess_card cv c image).suit_img, r.length = 70)) ∧
    0 ≤ sc ∧
    lab ∈ ["Spades", "Diamonds", "Clubs", "Hearts", "Unknown"] := by
  have hcorner : (preprocess_card cv c image).corner_pts.length = 4 := by
    have hpts : (preprocess_card cv c image).corner_pts
        = (cv.approxPolyDP c (1/100 * cv.arcLength c)).map
          (fun p => ((p.1 : ℚ), (p.2 : ℚ))) := rfl
    simp only [isCard, Bool.and_eq_true, decide_eq_true_eq] at hflag
    rw [hpts, List.length_map]
    exact hflag.2
  have hwarp : ∃ f, (preprocess_card cv c image).warp = mkImg 300 200 f :=
    ⟨_, rfl⟩
  have hsuit : ∃ s, (preprocess_card cv c image).suit_img = extract_suit cv s :=
    ⟨_, rfl⟩
  obtain ⟨f, hw⟩ := hwarp
  obtain ⟨s, hsi⟩ := hsuit
  have hlab : lab ∈ ["Spades", "Diamonds", "Clubs", "Hearts", "Unknown"] := by
    by_cases he2 : (preprocess_card cv c image).suit_img = []
    · simp only [match_card, if_pos he2, Option.map_some', Option.some.injEq,
        Prod.mk.injEq] at hmatch
      have hl : lab = "Unknown" := by
        rw [← hmatch.1]
        rfl
      simp [hl]
    · cases hm : matchLoop (preprocess_card cv c image).suit_img
          (load_suits read fp) (10000, none) with
      | none =>
        rw [match_card, if_neg he2, hm] at hmatch
        simp at hmatch
      | some a =>
        rw [match_card, if_neg he2, hm] at hmatch
        simp only [Option.map_some', Option.some.injEq, Prod.mk.injEq]
          at hmatch
        rcases matchLoop_name _ _ _ _ hm with hnone | ⟨u, hu, hname⟩
        · have hl : lab = "Unknown" := by
            rw [← hmatch.1, hnone]
            split <;> rfl
          simp [hl]
        · by_cases hb : a.1 < SUIT_DIFF_MAX
          · have hl : lab = u.name := by
              rw [← hmatch.1, if_pos hb, hname]
              rfl
            have h4 := load_suits_names read fp u hu
            rw [hl]
            simp only [List.mem_cons, List.not_mem_nil, or_false] at h4 ⊢
            tauto
          · have hl : lab = "Unknown" := by
              rw [← hmatch.1, if_neg hb]
            simp [hl]
  refine ⟨hcorner, ?_, ?_, ?_, Nat.zero_le _, hlab⟩
  · rw [hw]
    exact mkImg_length _ _ _
  · rw [hw]
    exact mkImg_rows _ _ _
  · rw [hsi]
    exact extract_suit_shape cv s

/-- Witness for `card_invariants` at concrete primitives where the suit band
has no contour (empty glyph, label "Unknown"). -/
theorem card_invariants_witness :
    isCard cvW cntW heW = true ∧
    match_card (preprocess_card cvW cntW frameW) (load_suits readW "tpl/")
      = some ("Unknown", 10000) ∧
    ((preprocess_card cvW cntW frameW).corner_pts.length = 4 ∧
      (preprocess_card cvW cntW frameW).warp.length = 300 ∧
      (∀ r ∈ (preprocess_card cvW cntW frameW).warp, r.length = 200) ∧
      ((preprocess_card cvW cntW frameW).suit_img = [] ∨
        ((preprocess_card cvW cntW frameW).suit_img.length = 100 ∧
          ∀ r ∈ (preprocess_card cvW cntW frameW).suit_img, r.length = 70)) ∧
      0 ≤ (10000 : Nat) ∧
      ("Unknown" : String)
        ∈ ["Spades", "Diamonds", "Clubs", "Hearts", "Unknown"]) := by
  have h1 : isCard cvW cntW heW = true := by decide
  have h2 : match_card (preprocess_card cvW cntW frameW)
      (load_suits readW "tpl/") = some ("Unknown", 10000) := rfl
  exact ⟨h1, h2, card_invariants cvW cntW heW frameW readW "tpl/"
    "Unknown" 10000 h1 h2⟩

/-! ## Geometry helper lemmas (argmin/argmax over a Quad) -/

theorem argmin4_eq_zero (f : ℚ × ℚ → ℚ) (q : Quad)
    (h1 : ¬ f q.p1 < f q.p0) (h2 : ¬ f q.p2 < f q.p0)
    (h3 : ¬ f q.p3 < f q.p0) : argmin4 f q = 0 := by
  have s1 : pickMin f q 0 1 = 0 := by
    unfold pickMin
    exact if_neg h1
  have s2 : pickMin f q (pickMin f q 0 1) 2 = 0 := by
    rw [s1]
    unfold pickMin
    exact if_neg h2
  unfold argmin4
  rw [s2]
  unfold pickMin
  exact if_neg h3

theorem argmin4_eq_one (f : ℚ × ℚ → ℚ) (q : Quad)
    (h1 : f q.p1 < f q.p0) (h2 : ¬ f q.p2 < f q.p1)
    (h3 : ¬ f q.p3 < f q.p1) : argmin4 f q = 1 := by
  have s1 : pickMin f q 0 1 = 1 := by
    unfold pickMin
    exact if_pos h1
  have s2 : pickMin f q (pickMin f q 0 1) 2 = 1 := by
    rw [s1]
    unfold pickMin
    exact if_neg h2
  unfold argmin4
  rw [s2]
  unfold pickMin
  exact if_neg h3

theorem argmin4_eq_two (f : ℚ × ℚ → ℚ) (q : Quad)
    (h1 : f q.p1 < f q.p0) (h2 : f q.p2 < f q.p1)
    (h3 : ¬ f q.p3 < f q.p2) : argmin4 f q = 2 := by
  have s1 : pickMin f q 0 1 = 1 := by
    unfold pickMin
    exact if_pos h1
  have s2 : pickMin f q (pickMin f q 0 1) 2 = 2 := by
    rw [s1]
    unfold pickMin
    exact if_pos h2
  unfold argmin4
  rw [s2]
  unfold pickMin
  exact if_neg h3

theorem argmin4_eq_three (f : ℚ × ℚ → ℚ) (q : Quad)
    (h1 : ¬ f q.p1 < f q.p0) (h2 : f q.p2 < f q.p0)
    (h3 : f q.p3 < f q.p2) : argmin4 f q = 3 := by
  have s1 : pickMin f q 0 1 = 0 := by
    unfold pickMin
    exact if_neg h1
  have s2 : pickMin f q (pickMin f q 0 1) 2 = 2 := by
    rw [s1]
    unfold pickMin
    exact if_pos h2
  unfold argmin4
  rw [s2]
  unfold pickMin
  exact if_pos h3

theorem argmax4_eq_zero (f : ℚ × ℚ → ℚ) (q : Quad)
    (h1 : ¬ f q.p0 < f q.p1) (h2 : ¬ f q.p0 < f q.p2)
    (h3 : ¬ f q.p0 < f q.p3) : argmax4 f q = 0 := by
  have s1 : pickMax f q 0 1 = 0 := by
    unfold pickMax
    exact if_neg h1
  have s2 : pickMax f q (pickMax f q 0 1) 2 = 0 := by
    rw [s1]
    unfold pickMax
    exact if_neg h2
  unfold argmax4
  rw [s2]
  unfold pickMax
  exact if_neg h3

theorem argmax4_eq_one (f : ℚ × ℚ → ℚ) (q : Quad)
    (h1 : f q.p0 < f q.p1) (h2 : ¬ f q.p1 < f q.p2)
    (h3 : ¬ f q.p1 < f q.p3) : argmax4 f q = 1 := by
  have s1 : pickMax f q 0 1 = 1 := by
    unfold pickMax
    exact if_pos h1
  have s2 : pickMax f q (pickMax f q 0 1) 2 = 1 := by
    rw [s1]
    unfold pickMax
    exact if_neg h2
  unfold argmax4
  rw [s2]
  unfold pickMax
  exact if_neg h3

theorem argmax4_eq_two (f : ℚ × ℚ → ℚ) (q : Quad)
    (h1 : f q.p0 < f q.p1) (h2 : f q.p1 < f q.p2)
    (h3 : ¬ f q.p2 < f q.p3) : argmax4 f q = 2 := by
  have s1 : pickMax f q 0 1 = 1 := by
    unfold pickMax
    exact if_pos h1
  have s2 : pickMax f q (pickMax f q 0 1) 2 = 2 := by
    rw [s1]
    unfold pickMax
    exact if_pos h2
  unfold argmax4
  rw [s2]
  unfold pickMax
  exact if_neg h3

theorem argmax4_eq_three (f : ℚ × ℚ → ℚ) (q : Quad)
    (h1 : ¬ f q.p0 < f q.p1) (h2 : f q.p0 < f q.p2)
    (h3 : f q.p2 < f q.p3) : argmax4 f q = 3 := by
  have s1 : pickMax f q 0 1 = 0 := by
    unfold pickMax
    exact if_neg h1
  have s2 : pickMax f q (pickMax f q 0 1) 2 = 2 := by
    rw [s1]
    unfold pickMax
    exact if_pos h2
  unfold argmax4
  rw [s2]
  unfold pickMax
  exact if_pos h3

theorem temp_rect_portrait (q : Quad) (w h : ℚ) (h0 : 0 < h)
    (hp : w ≤ 8/10 * h) :
    temp_rect q w h =
      ⟨qget q (argmin4 sumXY q), qget q (argmin4 diffYX q),
        qget q (argmax4 sumXY q), qget q (argmax4 diffYX q)⟩ := by
  have hnl : ¬ (12/10 * h ≤ w) := by
    intro hcon
    linarith
  have hnd : ¬ (8/10 * h < w ∧ w < 12/10 * h) := by
    rintro ⟨hcon, _⟩
    linarith
  simp only [temp_rect, if_neg hnd, if_neg hnl, if_pos hp]

theorem temp_rect_landscape (q : Quad) (w h : ℚ) (hl : 12/10 * h ≤ w) :
    temp_rect q w h =
      ⟨qget q (argmax4 diffYX q), qget q (argmin4 sumXY q),
        qget q (argmin4 diffYX q), qget q (argmax4 sumXY q)⟩ := by
  have hnd : ¬ (8/10 * h < w ∧ w < 12/10 * h) := by
    rintro ⟨_, hcon⟩
    linarith
  simp only [temp_rect, if_neg hnd, if_pos hl]

/-! ## Claim C3 -/

/-- Claim C3 (amended): for a 4-point corner set whose bounding box is
portrait (`w ≤ 0.8h`) or landscape (`w ≥ 1.2h`), `flattener` assigns the
top-left role to the point of minimum (x+y), the bottom-right role to the
point of maximum (x+y), the top-right role to the point of minimum (y−x)
— equivalently, of MAXIMUM (x−y); the claim had top-right and bottom-left
swapped — and the bottom-left role to the point of maximum (y−x), and the
portrait and landscape cases each use one fixed rotation of these four
extremal points as the ordered source quadrilateral
(portrait `[tl, tr, br, bl]`, landscape `[bl, tl, tr, br]`). -/
theorem flattener_corner_roles (q : Quad) (w h : ℚ) (h0 : 0 < h)
    (hcase : w ≤ 8/10 * h ∨ 12/10 * h ≤ w) :
    temp_rect q w h =
      if 12/10 * h ≤ w then
        ⟨qget q (argmax4 diffYX q), qget q (argmin4 sumXY q),
          qget q (argmin4 diffYX q), qget q (argmax4 sumXY q)⟩
      else
        ⟨qget q (argmin4 sumXY q), qget q (argmin4 diffYX q),
          qget q (argmax4 sumXY q), qget q (argmax4 diffYX q)⟩ := by
  rcases hcase with hp | hl
  · have hnl : ¬ (12/10 * h ≤ w) := by
      intro hcon
      linarith
    rw [if_neg hnl]
    exact temp_rect_portrait q w h h0 hp
  · rw [if_pos hl]
    exact temp_rect_landscape q w h hl

/-- Witness for `flattener_corner_roles` at the portrait quadrilateral
`qC3` with bounding box 10×30. -/
theorem flattener_corner_roles_witness :
    (0 : ℚ) < 30 ∧
    ((10 : ℚ) ≤ 8/10 * 30 ∨ (12/10 : ℚ) * 30 ≤ 10) ∧
    temp_rect qC3 10 30 =
      (if (12/10 : ℚ) * 30 ≤ 10 then
        ⟨qget qC3 (argmax4 diffYX qC3), qget qC3 (argmin4 sumXY qC3),
          qget qC3 (argmin4 diffYX qC3), qget qC3 (argmax4 sumXY qC3)⟩
      else
        ⟨qget qC3 (argmin4 sumXY qC3), qget qC3 (argmin4 diffYX qC3),
          qget qC3 (argmax4 sumXY qC3), qget qC3 (argmax4 diffYX qC3)⟩) := by
  refine ⟨by norm_num, Or.inl (by norm_num), ?_⟩
  exact flattener_corner_roles qC3 10 30 (by norm_num) (Or.inl (by norm_num))

/-- Claim C3 counterexample: on the portrait rectangle `qC3` (corners
(0,0), (10,0), (10,30), (0,30), bounding box 10×30) the code's ordered
source quadrilateral is `[(0,0), (10,0), (10,30), (0,30)]`, whose top-right
slot holds (10,0); but the point of minimum (x−y) — the claim's top-right —
is (0,30), and no cyclic rotation of the claim's extremal assignment equals
the code's output, so the claim's role mapping is wrong (the code uses
minimum/maximum of y−x, i.e. maximum/minimum of x−y, for
top-right/bottom-left). -/
theorem flattener_role_counterexample :
    qget qC3 (argmin4 (fun p => p.1 - p.2) qC3) = (0, 30) ∧
    (temp_rect qC3 10 30).p1 = (10, 0) ∧
    temp_rect qC3 10 30 ≠ temp_rect_claim qC3 10 30 ∧
    temp_rect qC3 10 30 ≠ rotQuad (temp_rect_claim qC3 10 30) ∧
    temp_rect qC3 10 30 ≠ rotQuad (rotQuad (temp_rect_claim qC3 10 30)) ∧
    temp_rect qC3 10 30
      ≠ rotQuad (rotQuad (rotQuad (temp_rect_claim qC3 10 30))) := by
  have hcode : temp_rect qC3 10 30 = ⟨(0, 0), (10, 0), (10, 30), (0, 30)⟩ := by
    rw [temp_rect_portrait qC3 10 30 (by norm_num) (by norm_num)]
    rw [argmin4_eq_zero sumXY qC3 (by norm_num [qC3, sumXY])
        (by norm_num [qC3, sumXY]) (by norm_num [qC3, sumXY]),
      argmin4_eq_one diffYX qC3 (by norm_num [qC3, diffYX])
        (by norm_num [qC3, diffYX]) (by norm_num [qC3, diffYX]),
      argmax4_eq_two sumXY qC3 (by norm_num [qC3, sumXY])
        (by norm_num [qC3, sumXY]) (by norm_num [qC3, sumXY]),
      argmax4_eq_three diffYX qC3 (by norm_num [qC3, diffYX])
        (by norm_num [qC3, diffYX]) (by norm_num [qC3, diffYX])]
    norm_num [qC3, qget]
  have hmin : qget qC3 (argmin4 (fun p => p.1 - p.2) qC3) = (0, 30) := by
    rw [argmin4_eq_three (fun p => p.1 - p.2) qC3 (by norm_num [qC3])
      (by norm_num [qC3]) (by norm_num [qC3])]
    norm_num [qC3, qget]
  have hclaim : temp_rect_claim qC3 10 30
      = ⟨(0, 0), (0, 30), (10, 30), (10, 0)⟩ := by
    have hnl : ¬ ((12/10 : ℚ) * 30 ≤ 10) := by norm_num
    have hp : (10 : ℚ) ≤ 8/10 * 30 := by norm_num
    simp only [temp_rect_claim, if_neg hnl, if_pos hp]
    rw [argmin4_eq_zero sumXY qC3 (by norm_num [qC3, sumXY])
        (by norm_num [qC3, sumXY]) (by norm_num [qC3, sumXY]),
      argmax4_eq_two sumXY qC3 (by norm_num [qC3, sumXY])
        (by norm_num [qC3, sumXY]) (by norm_num [qC3, sumXY]),
      argmax4_eq_one (fun p => p.1 - p.2) qC3 (by norm_num [qC3])
        (by norm_num [qC3]) (by norm_num [qC3])]
    rw [argmin4_eq_three (fun p => p.1 - p.2) qC3 (by norm_num [qC3])
      (by norm_num [qC3]) (by norm_num [qC3])]
    norm_num [qC3, qget]
  refine ⟨hmin, by rw [hcode], ?_, ?_, ?_, ?_⟩ <;>
    rw [hcode, hclaim] <;>
    norm_num [rotQuad, Quad.mk.injEq, Prod.mk.injEq]

/-! ## Claim C4 -/

/-- Claim C4 (amended): rectification is rotation-consistent only up to a
half-turn of the card.  For an axis-aligned portrait card with half-width
`a`, half-height `b` and centre `(cx, cy)`: the 0° pose and the 180° pose
produce the identical ordered source quadrilateral (the corner set is the
same four points, so the rectifier cannot distinguish them — the 180° pose's
canonical image shows the face rotated by a half-turn); the quarter-turn
pose under `rot3Q` maps each corner role to the rotated image of the same
physical corner (content preserved), while the quarter-turn pose under
`rotQ` assigns roles to the rotated images of the half-turn-opposite
corners (content rotated by a half-turn).  Orientation classification is
portrait for 0°/180° and landscape for both quarter-turns. -/
theorem flattener_rotation_amended (cx cy a b : ℚ) (ha : 0 < a)
    (hab : a ≤ 8/10 * b) :
    temp_rect ⟨(cx - a, cy - b), (cx + a, cy - b), (cx + a, cy + b),
        (cx - a, cy + b)⟩ (2 * a) (2 * b)
      = ⟨(cx - a, cy - b), (cx + a, cy - b), (cx + a, cy + b),
        (cx - a, cy + b)⟩ ∧
    temp_rect (mapQuad (rotH (cx, cy)) ⟨(cx - a, cy - b), (cx + a, cy - b),
        (cx + a, cy + b), (cx - a, cy + b)⟩) (2 * a) (2 * b)
      = ⟨(cx - a, cy - b), (cx + a, cy - b), (cx + a, cy + b),
        (cx - a, cy + b)⟩ ∧
    temp_rect (mapQuad (rotQ (cx, cy)) ⟨(cx - a, cy - b), (cx + a, cy - b),
        (cx + a, cy + b), (cx - a, cy + b)⟩) (2 * b) (2 * a)
      = mapQuad (rotQ (cx, cy)) ⟨(cx + a, cy + b), (cx - a, cy + b),
        (cx - a, cy - b), (cx + a, cy - b)⟩ ∧
    temp_rect (mapQuad (rot3Q (cx, cy)) ⟨(cx - a, cy - b), (cx + a, cy - b),
        (cx + a, cy + b), (cx - a, cy + b)⟩) (2 * b) (2 * a)
      = mapQuad (rot3Q (cx, cy)) ⟨(cx - a, cy - b), (cx + a, cy - b),
        (cx + a, cy + b), (cx - a, cy + b)⟩ := by
  have hb : 0 < b := by linarith
  have hab2 : a < b := by linarith
  have hQ180 : mapQuad (rotH (cx, cy)) ⟨(cx - a, cy - b), (cx + a, cy - b),
      (cx + a, cy + b), (cx - a, cy + b)⟩
      = ⟨(cx + a, cy + b), (cx - a, cy + b), (cx - a, cy - b),
        (cx + a, cy - b)⟩ := by
    simp only [mapQuad, rotH, Quad.mk.injEq, Prod.mk.injEq]
    refine ⟨⟨by ring, by ring⟩, ⟨by ring, by ring⟩, ⟨by ring, by ring⟩,
      by ring, by ring⟩
  have hQ90 : mapQuad (rotQ (cx, cy)) ⟨(cx - a, cy - b), (cx + a, cy - b),
      (cx + a, cy + b), (cx - a, cy + b)⟩
      = ⟨(cx + b, cy - a), (cx + b, cy + a), (cx - b, cy + a),
        (cx - b, cy - a)⟩ := by
    simp only [mapQuad, rotQ, Quad.mk.injEq, Prod.mk.injEq]
    refine ⟨⟨by ring, by ring⟩, ⟨by ring, by ring⟩, ⟨by ring, by ring⟩,
      by ring, by ring⟩
  have hQ90r : mapQuad (rotQ (cx, cy)) ⟨(cx + a, cy + b), (cx - a, cy + b),
      (cx - a, cy - b), (cx + a, cy - b)⟩
      = ⟨(cx - b, cy + a), (cx - b, cy - a), (cx + b, cy - a),
        (cx + b, cy + a)⟩ := by
    simp only [mapQuad, rotQ, Quad.mk.injEq, Prod.mk.injEq]
    refine ⟨⟨by ring, by ring⟩, ⟨by ring, by ring⟩, ⟨by ring, by ring⟩,
      by ring, by ring⟩
  have hQ270 : mapQuad (rot3Q (cx, cy)) ⟨(cx - a, cy - b), (cx + a, cy - b),
      (cx + a, cy + b), (cx - a, cy + b)⟩
      = ⟨(cx - b, cy + a), (cx - b, cy - a), (cx + b, cy - a),
        (cx + b, cy + a)⟩ := by
    simp only [mapQuad, rot3Q, Quad.mk.injEq, Prod.mk.injEq]
    refine ⟨⟨by ring, by ring⟩, ⟨by ring, by ring⟩, ⟨by ring, by ring⟩,
      by ring, by ring⟩
  have hport : (2 : ℚ) * a ≤ 8/10 * (2 * b) := by linarith
  have hland : (12/10 : ℚ) * (2 * a) ≤ 2 * b := by linarith
  have h2b : (0 : ℚ) < 2 * b := by linarith
  refine ⟨?_, ?_, ?_, ?_⟩
  · rw [temp_rect_portrait _ _ _ h2b hport]
    rw [argmin4_eq_zero sumXY _ (by simp only [sumXY]; intro hcon; linarith)
        (by simp only [sumXY]; intro hcon; linarith)
        (by simp only [sumXY]; intro hcon; linarith),
      argmin4_eq_one diffYX _ (by simp only [diffYX]; linarith)
        (by simp only [diffYX]; intro hcon; linarith)
        (by simp only [diffYX]; intro hcon; linarith),
      argmax4_eq_two sumXY _ (by simp only [sumXY]; linarith)
        (by simp only [sumXY]; linarith)
        (by simp only [sumXY]; intro hcon; linarith),
      argmax4_eq_three diffYX _ (by simp only [diffYX]; intro hcon; linarith)
        (by simp only [diffYX]; linarith)
        (by simp only [diffYX]; linarith)]
    rfl
  · rw [hQ180, temp_rect_portrait _ _ _ h2b hport]
    rw [argmin4_eq_two sumXY _ (by simp only [sumXY]; linarith)
        (by simp only [sumXY]; linarith)
        (by simp only [sumXY]; intro hcon; linarith),
      argmin4_eq_three diffYX _ (by simp only [diffYX]; intro hcon; linarith)
        (by simp only [diffYX]; linarith)
        (by simp only [diffYX]; linarith),
      argmax4_eq_zero sumXY _ (by simp only [sumXY]; intro hcon; linarith)
        (by simp only [sumXY]; intro hcon; linarith)
        (by simp only [sumXY]; intro hcon; linarith),
      argmax4_eq_one diffYX _ (by simp only [diffYX]; linarith)
        (by simp only [diffYX]; intro hcon; linarith)
        (by simp only [diffYX]; intro hcon; linarith)]
    rfl
  · rw [hQ90, hQ90r, temp_rect_landscape _ _ _ hland]
    rw [argmax4_eq_two diffYX _ (by simp only [diffYX]; linarith)
        (by simp only [diffYX]; linarith)
        (by simp only [diffYX]; intro hcon; linarith),
      argmin4_eq_three sumXY _ (by simp only [sumXY]; intro hcon; linarith)
        (by simp only [sumXY]; linarith)
        (by simp only [sumXY]; linarith),
      argmin4_eq_zero diffYX _ (by simp only [diffYX]; intro hcon; linarith)
        (by simp only [diffYX]; intro hcon; linarith)
        (by simp only [diffYX]; intro hcon; linarith),
      argmax4_eq_one sumXY _ (by simp only [sumXY]; linarith)
        (by simp only [sumXY]; intro hcon; linarith)
        (by simp only [sumXY]; intro hcon; linarith)]
    rfl
  · rw [hQ270, temp_rect_landscape _ _ _ hland]
    rw [argmax4_eq_zero diffYX _ (by simp only [diffYX]; intro hcon; linarith)
        (by simp only [diffYX]; intro hcon; linarith)
        (by simp only [diffYX]; intro hcon; linarith),
      argmin4_eq_one sumXY _ (by simp only [sumXY]; linarith)
        (by simp only [sumXY]; intro hcon; linarith)
        (by simp only [sumXY]; intro hcon; linarith),
      argmin4_eq_two diffYX _ (by simp only [diffYX]; linarith)
        (by simp only [diffYX]; linarith)
        (by simp only [diffYX]; intro hcon; linarith),
      argmax4_eq_three sumXY _ (by simp only [sumXY]; intro hcon; linarith)
        (by simp only [sumXY]; linarith)
        (by simp only [sumXY]; linarith)]
    rfl

/-- Claim C4 counterexample: for the 20×40 portrait card `qC4` centred at
(50, 50), the 180°-rotated pose presents the same four corner points, so
`temp_rect` produces the identical ordered source quadrilateral; but the
face point sampled into the canonical top-left corner of the 180° pose —
the pull-back through the half-turn of the quadrilateral's first point — is
(60, 70), the card's bottom-right corner, not the top-left corner (40, 30)
sampled in the 0° pose.  The canonical content of the 180° pose is the card
rotated by a half-turn, refuting "the same canonical content" for all four
rotations. -/
theorem flattener_rotation_counterexample :
    mapQuad (rotH (50, 50)) qC4 = ⟨(60, 70), (40, 70), (40, 30), (60, 30)⟩ ∧
    temp_rect (mapQuad (rotH (50, 50)) qC4) 20 40 = temp_rect qC4 20 40 ∧
    rotH (50, 50) ((temp_rect (mapQuad (rotH (50, 50)) qC4) 20 40).p0)
      ≠ (temp_rect qC4 20 40).p0 := by
  have h1 : mapQuad (rotH (50, 50)) qC4
      = ⟨(60, 70), (40, 70), (40, 30), (60, 30)⟩ := by
    norm_num [mapQuad, rotH, qC4, Quad.mk.injEq, Prod.mk.injEq]
  have hcode : temp_rect qC4 20 40 = ⟨(40, 30), (60, 30), (60, 70), (40, 70)⟩ := by
    rw [temp_rect_portrait qC4 20 40 (by norm_num) (by norm_num)]
    rw [argmin4_eq_zero sumXY qC4 (by norm_num [qC4, sumXY])
        (by norm_num [qC4, sumXY]) (by norm_num [qC4, sumXY]),
      argmin4_eq_one diffYX qC4 (by norm_num [qC4, diffYX])
        (by norm_num [qC4, diffYX]) (by norm_num [qC4, diffYX]),
      argmax4_eq_two sumXY qC4 (by norm_num [qC4, sumXY])
        (by norm_num [qC4, sumXY]) (by norm_num [qC4, sumXY]),
      argmax4_eq_three diffYX qC4 (by norm_num [qC4, diffYX])
        (by norm_num [qC4, diffYX]) (by norm_num [qC4, diffYX])]
    norm_num [qC4, qget]
  have hrot : temp_rect (⟨(60, 70), (40, 70), (40, 30), (60, 30)⟩ : Quad) 20 40
      = ⟨(40, 30), (60, 30), (60, 70), (40, 70)⟩ := by
    rw [temp_rect_portrait _ 20 40 (by norm_num) (by norm_num)]
    rw [argmin4_eq_two sumXY _ (by norm_num [sumXY]) (by norm_num [sumXY])
        (by norm_num [sumXY]),
      argmin4_eq_three diffYX _ (by norm_num [diffYX]) (by norm_num [diffYX])
        (by norm_num [diffYX]),
      argmax4_eq_zero sumXY _ (by norm_num [sumXY]) (by norm_num [sumXY])
        (by norm_num [sumXY]),
      argmax4_eq_one diffYX _ (by norm_num [diffYX]) (by norm_num [diffYX])
        (by norm_num [diffYX])]
    norm_num [qget]
  refine ⟨h1, ?_, ?_⟩
  · rw [h1, hrot, hcode]
  · rw [h1, hrot, hcode]
    norm_num [rotH, Prod.mk.injEq]

/-- Witness for `flattener_rotation_amended` at centre (0,0), half-width 10,
half-height 20. -/
theorem flattener_rotation_amended_witness :
    (0 : ℚ) < 10 ∧ (10 : ℚ) ≤ 8/10 * 20 ∧
    (temp_rect ⟨((0:ℚ) - 10, (0:ℚ) - 20), (0 + 10, 0 - 20), (0 + 10, 0 + 20),
        (0 - 10, 0 + 20)⟩ (2 * 10) (2 * 20)
      = ⟨((0:ℚ) - 10, (0:ℚ) - 20), (0 + 10, 0 - 20), (0 + 10, 0 + 20),
        (0 - 10, 0 + 20)⟩ ∧
    temp_rect (mapQuad (rotH (0, 0)) ⟨((0:ℚ) - 10, (0:ℚ) - 20),
        (0 + 10, 0 - 20), (0 + 10, 0 + 20), (0 - 10, 0 + 20)⟩) (2 * 10) (2 * 20)
      = ⟨((0:ℚ) - 10, (0:ℚ) - 20), (0 + 10, 0 - 20), (0 + 10, 0 + 20),
        (0 - 10, 0 + 20)⟩ ∧
    temp_rect (mapQuad (rotQ (0, 0)) ⟨((0:ℚ) - 10, (0:ℚ) - 20),
        (0 + 10, 0 - 20), (0 + 10, 0 + 20), (0 - 10, 0 + 20)⟩) (2 * 20) (2 * 10)
      = mapQuad (rotQ (0, 0)) ⟨((0:ℚ) + 10, (0:ℚ) + 20), (0 - 10, 0 + 20),
        (0 - 10, 0 - 20), (0 + 10, 0 - 20)⟩ ∧
    temp_rect (mapQuad (rot3Q (0, 0)) ⟨((0:ℚ) - 10, (0:ℚ) - 20),
        (0 + 10, 0 - 20), (0 + 10, 0 + 20), (0 - 10, 0 + 20)⟩) (2 * 20) (2 * 10)
      = mapQuad (rot3Q (0, 0)) ⟨((0:ℚ) - 10, (0:ℚ) - 20), (0 + 10, 0 - 20),
        (0 + 10, 0 + 20), (0 - 10, 0 + 20)⟩) := by
  exact ⟨by norm_num, by norm_num,
    flattener_rotation_amended 0 0 10 20 (by norm_num) (by norm_num)⟩
